import Mathlib

/-!
# Shallow embedding of `statefile-rs` (src/lib.rs)

The crate provides `File<T>`: a JSON-backed state store.  `File::new` opens
(read+write+create) the file at a path, reads its contents, resolves an empty
file to `T::default()` and non-empty contents through `serde_json::from_str`,
and stores the value behind a `tokio::sync::RwLock` together with the path.
`File::write` hands out a `WriteGuard` wrapping the exclusive lock guard plus a
clone of the path; dropping the guard serializes the value with
`serde_json::to_string_pretty` and writes it to the file, logging (never
propagating) every failure.

The embedding models file contents as `List Char`, the serializer as an
explicit `Codec` record standing for the external `serde` / `serde_json`
collaborators, and I/O failures as boolean oracles (`NewEnv`, `DropEnv`)
selecting which external calls fail.  A faithful detail of `Drop for
WriteGuard` (src/lib.rs:27): the file is opened with `write(true).create(true)`
and no `truncate(true)`, so `write_all` overwrites the first `json.len()` bytes
and any longer previous contents keep their tail.
-/

namespace Statefile

/-- File contents / serialized bytes, as a character list. -/
abbrev Bytes := List Char

/-- The serialization capability required of the state type: the external
`serde_json` collaborator specialized at `T` (`to_string_pretty`,
`from_str`) together with `T::default()`. -/
structure Codec (T : Type) where
  toPretty : T → Bytes
  fromStr : Bytes → Except Unit T
  dflt : T

/-- `serde_json` law: decoding the pretty-printed encoding of `v` yields `v`
(round-trip of `from_str` after `to_string_pretty`). -/
def RoundTrip {T : Type} (c : Codec T) : Prop :=
  ∀ v : T, c.fromStr (c.toPretty v) = .ok v

/-- `serde_json` law: `to_string_pretty` never produces empty output. -/
def EncNonEmpty {T : Type} (c : Codec T) : Prop :=
  ∀ v : T, c.toPretty v ≠ []

/-- JSON whitespace characters (RFC 8259). -/
def isJsonWS (ch : Char) : Bool :=
  ch = ' ' || ch = '\n' || ch = '\t' || ch = '\r'

/-- `serde_json` law: `from_str` fails on input that contains only whitespace
(a JSON text must contain a value). -/
def WsFails {T : Type} (c : Codec T) : Prop :=
  ∀ s : Bytes, s ≠ [] → s.all isJsonWS = true → c.fromStr s = .error ()

/-- The two fatal construction errors of `File::new`
(`open`/`read_to_string` propagated with `?`, and `serde_json::from_str`
propagated with `?`). -/
inductive NewErr where
  | ioError
  | decodeError
deriving DecidableEq, Repr

/-- I/O oracle for `File::new`: whether `OpenOptions::open` and
`read_to_string` succeed. -/
structure NewEnv where
  openOk : Bool
  readOk : Bool
deriving DecidableEq, Repr

/-- The environment in which every I/O call of `File::new` succeeds. -/
def okNewEnv : NewEnv := ⟨true, true⟩

/-- The `File<T>` struct: the in-memory value (behind the `RwLock`) and the
stored path. -/
structure StoreState (T : Type) where
  data : T
  path : String
deriving DecidableEq, Repr

/-- `File::new` (src/lib.rs:101-122).  Input `fs` is the contents of the file
at `path` (`none` when the file does not exist).  Opening with
`read(true).write(true).create(true)` creates an empty file when absent, so the
file contents after the call are `fs.getD []` whenever the open succeeded.
Returns the construction result together with the file contents afterwards. -/
def fileNew {T : Type} (c : Codec T) (path : String) (fs : Option Bytes)
    (env : NewEnv) : Except NewErr (StoreState T) × Option Bytes :=
  if env.openOk then
    let contents := fs.getD []
    if env.readOk then
      if contents = [] then
        (.ok ⟨c.dflt, path⟩, some contents)
      else
        match c.fromStr contents with
        | .ok v => (.ok ⟨v, path⟩, some contents)
        | .error _ => (.error .decodeError, some contents)
    else
      (.error .ioError, some contents)
  else
    (.error .ioError, fs)

/-- `File::read` (src/lib.rs:126-128): hands out shared access to the
in-memory value; the file is not touched, which the embedding records by
returning the file contents unchanged. -/
def fileRead {T : Type} (s : StoreState T) (fs : Option Bytes) :
    T × Option Bytes :=
  (s.data, fs)

/-- The `WriteGuard` struct (src/lib.rs:9-12): the exclusive guard's value and
the clone of the store's path made by `File::write` (src/lib.rs:132-137). -/
structure WriteGuardState (T : Type) where
  value : T
  path : String
deriving DecidableEq, Repr

/-- `File::write` (src/lib.rs:132-137): wraps the exclusive lock guard and a
clone of `self.path` into a `WriteGuard`. -/
def fileWrite {T : Type} (s : StoreState T) : WriteGuardState T :=
  ⟨s.data, s.path⟩

/-- The log calls made by `Drop for WriteGuard`: one `log::error!` per failure
branch and the final `log::info!` on success. -/
inductive LogEvent where
  | serializeError
  | openError
  | writeError
  | flushError
  | writeSuccess
deriving DecidableEq, Repr

/-- I/O oracle for `Drop for WriteGuard`: whether
`serde_json::to_string_pretty`, `OpenOptions::open`, `write_all` and `flush`
succeed. -/
structure DropEnv where
  serializeOk : Bool
  openOk : Bool
  writeOk : Bool
  flushOk : Bool
deriving DecidableEq, Repr

/-- The environment in which every call of the drop routine succeeds. -/
def okDropEnv : DropEnv := ⟨true, true, true, true⟩

/-- Result of running the drop routine: the file contents afterwards, the log
events emitted, and the byte strings passed to `write_all` (one entry per
`write_all` call performed). -/
structure DropResult where
  fs : Option Bytes
  logs : List LogEvent
  writes : List Bytes
deriving DecidableEq, Repr

/-- `Drop for WriteGuard` (src/lib.rs:14-49).  Serializes the guarded value
with `to_string_pretty`; on failure logs and returns.  Opens the file with
`write(true).create(true)` — creating an empty file when absent but NOT
truncating — so a successful `write_all` leaves the file holding the new bytes
followed by whatever tail of the previous, longer contents lies beyond them.
Each failing call logs one error and returns; success logs one info event.
(A `write_all` that fails may leave a partial write on the real file system;
the embedding leaves the contents unchanged in that case, which no theorem
below relies on.) -/
def writeGuardDrop {T : Type} (c : Codec T) (v : T) (fs : Option Bytes)
    (env : DropEnv) : DropResult :=
  if env.serializeOk then
    let json := c.toPretty v
    if env.openOk then
      let old := fs.getD []
      if env.writeOk then
        let newContents := json ++ old.drop json.length
        if env.flushOk then
          ⟨some newContents, [.writeSuccess], [json]⟩
        else
          ⟨some newContents, [.flushError], [json]⟩
      else
        ⟨some old, [.writeError], [json]⟩
    else
      ⟨fs, [.openError], []⟩
  else
    ⟨fs, [.serializeError], []⟩

/-- Fold a write session's sequence of in-place mutations over the guarded
value, in order.  Each mutation goes through `DerefMut` (src/lib.rs:59-63),
which merely exposes `&mut self.guard`: mutations touch only the in-memory
value, never the file. -/
def applyMuts {T : Type} (muts : List (T → T)) (v : T) : T :=
  muts.foldl (fun a f => f a) v

/-- Result of a whole write session: the in-memory value as the store keeps it
after the guard is dropped, the file contents, the log events, and every
`write_all` performed during the session. -/
structure SessionResult (T : Type) where
  value : T
  fs : Option Bytes
  logs : List LogEvent
  writes : List Bytes
deriving DecidableEq, Repr

/-- A complete write session on a store holding `v0`: the caller mutates the
value through `DerefMut` any number of times (no I/O), then the guard is
dropped, triggering `writeGuardDrop` on the final value.  The `RwLock` keeps
the mutated value regardless of how the persistence attempt ends. -/
def runWriteSession {T : Type} (c : Codec T) (v0 : T) (muts : List (T → T))
    (fs : Option Bytes) (env : DropEnv) : SessionResult T :=
  let vf := applyMuts muts v0
  let d := writeGuardDrop c vf fs env
  ⟨vf, d.fs, d.logs, d.writes⟩

/-- Occupancy of the `tokio::sync::RwLock` guarding a store's value: how many
read sessions and how many write sessions are currently active. -/
structure LockState where
  readers : Nat
  writers : Nat
deriving DecidableEq, Repr

/-- Admission discipline of the `tokio::sync::RwLock` used by `File::read` and
`File::write` (src/lib.rs:126-137): `read().await` returns only while no
writer holds the lock, `write().await` only while no reader and no writer
holds it; dropping a guard releases its hold. -/
inductive LockStep : LockState → LockState → Prop where
  | acquireRead (s : LockState) : s.writers = 0 →
      LockStep s ⟨s.readers + 1, s.writers⟩
  | releaseRead (s : LockState) : 0 < s.readers →
      LockStep s ⟨s.readers - 1, s.writers⟩
  | acquireWrite (s : LockState) : s.writers = 0 → s.readers = 0 →
      LockStep s ⟨s.readers, s.writers + 1⟩
  | releaseWrite (s : LockState) : 0 < s.writers →
      LockStep s ⟨s.readers, s.writers - 1⟩

/-- Lock states reachable from the freshly-constructed store (no sessions
active). -/
def LockReachable (s : LockState) : Prop :=
  Relation.ReflTransGen LockStep ⟨0, 0⟩ s

/-- Modelled from the spec: "the canonicalized path".  `File::new` in the
source never calls a canonicalization routine, so canonicalization itself is
absent from src/; this definition follows the spec's word — a canonical form
resolves relative components, here the representative case of a leading
`./` component.  It is compared against the path the code actually stores. -/
def spec_canonicalize (p : String) : String :=
  match p.toList with
  | '.' :: '/' :: rest => String.mk rest
  | _ => p

/-- A concrete state type for witnesses: `serde_json` specialized at `bool`
(`to_string_pretty` prints `true` / `false`; `from_str` accepts the literal
surrounded by optional whitespace and rejects anything else, in particular
trailing data). `Default for bool` is `false`. -/
def trimWS (s : Bytes) : Bytes :=
  ((s.dropWhile isJsonWS).reverse.dropWhile isJsonWS).reverse

/-- The `bool` instance of the serialization capability. -/
def boolCodec : Codec Bool where
  toPretty b := if b then "true".toList else "false".toList
  fromStr s :=
    let t := trimWS s
    if t = "true".toList then .ok true
    else if t = "false".toList then .ok false
    else .error ()
  dflt := false

instance {ε α : Type} [DecidableEq ε] [DecidableEq α] : DecidableEq (Except ε α) :=
  fun x y =>
    match x, y with
    | .ok a, .ok b =>
      match decEq a b with
      | isTrue h => isTrue (congrArg Except.ok h)
      | isFalse h => isFalse fun hh => h (Except.ok.inj hh)
    | .error a, .error b =>
      match decEq a b with
      | isTrue h => isTrue (congrArg Except.error h)
      | isFalse h => isFalse fun hh => h (Except.error.inj hh)
    | .ok _, .error _ => isFalse fun hh => Except.noConfusion hh
    | .error _, .ok _ => isFalse fun hh => Except.noConfusion hh

/-- The `bool` codec satisfies the round-trip law of `serde_json`. -/
theorem boolCodec_roundTrip : RoundTrip boolCodec := by
  intro v
  cases v <;> decide

/-- The `bool` codec never pretty-prints to the empty string. -/
theorem boolCodec_encNonEmpty : EncNonEmpty boolCodec := by
  intro v
  cases v <;> decide

/-- Dropping a satisfied predicate from an all-satisfying list leaves nothing. -/
theorem dropWhile_all_eq_nil {α : Type} (p : α → Bool) (l : List α)
    (h : l.all p = true) : l.dropWhile p = [] := by
  rw [List.dropWhile_eq_nil_iff]
  intro x hx
  exact List.all_eq_true.mp h x hx

/-- Trimming a whitespace-only string leaves the empty string. -/
theorem trimWS_all_ws {s : Bytes} (h : s.all isJsonWS = true) : trimWS s = [] := by
  have h1 : s.dropWhile isJsonWS = [] := dropWhile_all_eq_nil _ _ h
  simp [trimWS, h1]

/-- The `bool` codec rejects whitespace-only input, as `serde_json` does. -/
theorem boolCodec_wsFails : WsFails boolCodec := by
  intro s hne hws
  have ht : trimWS s = [] := trimWS_all_ws hws
  have hfs : boolCodec.fromStr s =
      (if trimWS s = "true".toList then Except.ok true
       else if trimWS s = "false".toList then Except.ok false
       else Except.error ()) := rfl
  rw [hfs, ht]
  decide

/-- C1: the claim says release overwrites the entire file so that nothing of a
previous, longer content survives.  The code opens with
`write(true).create(true)` and no `truncate(true)` (src/lib.rs:27), so writing
the 4-byte encoding of `true` over a file holding the 5-byte encoding of
`false` leaves the file holding `truee` — the serialized bytes plus one
leftover byte — even though every call succeeded and the success log fired. -/
theorem c1_release_leaves_stale_tail :
    writeGuardDrop boolCodec true (some ("false".toList)) okDropEnv =
      ⟨some ("truee".toList), [.writeSuccess], [boolCodec.toPretty true]⟩ ∧
    ("truee".toList : Bytes) ≠ boolCodec.toPretty true := by
  constructor
  · rfl
  · decide

/-- C2: the claim says persist-then-construct round-trips every value
regardless of the file's previous contents.  Starting from a file holding
`false` (5 bytes), a session that sets the value to `true` leaves the file
holding `truee` (no truncation on open, src/lib.rs:27), and a fresh
`File::new` over that file fails with a decode error instead of yielding
`true`. -/
theorem c2_roundtrip_fails_after_shrinking_write :
    (fileNew boolCodec "state.json"
        (runWriteSession boolCodec false [fun _ => true]
          (some ("false".toList)) okDropEnv).fs
        okNewEnv).1 = .error .decodeError ∧
    (fileNew boolCodec "state.json"
        (runWriteSession boolCodec false [fun _ => true]
          (some ("false".toList)) okDropEnv).fs
        okNewEnv).1 ≠ .ok ⟨true, "state.json"⟩ := by
  constructor
  · rfl
  · decide

/-- C3: however many mutations a write session performs, the session's only
`write_all` happens at release and carries the serialization of the value as
it stands then (`applyMuts muts v0`); mutations themselves go through
`DerefMut` (src/lib.rs:59-63) and perform no I/O, and no environment makes the
drop routine (src/lib.rs:14-49) write more than once. -/
theorem c3_exactly_one_write_of_final_value {T : Type} (c : Codec T) (v0 : T)
    (muts : List (T → T)) (fs : Option Bytes) :
    (runWriteSession c v0 muts fs okDropEnv).writes =
      [c.toPretty (applyMuts muts v0)] ∧
    ∀ env : DropEnv,
      ((runWriteSession c v0 muts fs env).writes).length ≤ 1 := by
  constructor
  · rfl
  · intro env
    obtain ⟨so, oo, wo, fo⟩ := env
    cases so <;> cases oo <;> cases wo <;> cases fo <;>
      simp [runWriteSession, writeGuardDrop]

/-- C4: under a round-tripping, non-empty-output serializer, `File::new` over
an absent file or an empty file yields `T::default()`, and over a file holding
the valid encoding of `v` yields exactly `v` with the input path, unmutated
(src/lib.rs:108-121). -/
theorem c4_construct_default_or_decoded {T : Type} (c : Codec T) (p : String)
    (hr : RoundTrip c) (hne : EncNonEmpty c) :
    (fileNew c p none okNewEnv).1 = .ok ⟨c.dflt, p⟩ ∧
    (fileNew c p (some []) okNewEnv).1 = .ok ⟨c.dflt, p⟩ ∧
    ∀ v : T, (fileNew c p (some (c.toPretty v)) okNewEnv).1 = .ok ⟨v, p⟩ := by
  refine ⟨rfl, rfl, ?_⟩
  intro v
  have hnev := hne v
  simp [fileNew, okNewEnv, hnev, hr v]

/-- C4 witness at the `bool` codec: a file holding the encoding of `true`
decodes back to `true`. -/
theorem c4_witness :
    (fileNew boolCodec "d.json" (some (boolCodec.toPretty true)) okNewEnv).1 =
      .ok ⟨true, "d.json"⟩ :=
  (c4_construct_default_or_decoded boolCodec "d.json" boolCodec_roundTrip
    boolCodec_encNonEmpty).2.2 true

/-- C5: whichever call of the release routine fails (serialize, open, write or
flush), exactly one error is logged, the success log does not fire, the
in-memory value the store keeps is still the session's final value, and no
retry happens (at most one `write_all`).  The routine is a total function into
`DropResult` — it returns on every path of src/lib.rs:14-49 instead of
propagating or panicking. -/
theorem c5_drop_failures_logged_and_swallowed {T : Type} (c : Codec T)
    (v0 : T) (muts : List (T → T)) (fs : Option Bytes) (env : DropEnv)
    (hfail : env ≠ okDropEnv) :
    (runWriteSession c v0 muts fs env).logs.length = 1 ∧
    LogEvent.writeSuccess ∉ (runWriteSession c v0 muts fs env).logs ∧
    (runWriteSession c v0 muts fs env).value = applyMuts muts v0 ∧
    ((runWriteSession c v0 muts fs env).writes).length ≤ 1 := by
  obtain ⟨so, oo, wo, fo⟩ := env
  cases so <;> cases oo <;> cases wo <;> cases fo <;>
    simp_all [runWriteSession, writeGuardDrop, okDropEnv]

/-- C5 witness: a failed serialization logs one error, no success, and leaves
the in-memory value as the session set it. -/
theorem c5_witness :
    (runWriteSession boolCodec false [] none ⟨false, true, true, true⟩).logs.length = 1 ∧
    LogEvent.writeSuccess ∉
      (runWriteSession boolCodec false [] none ⟨false, true, true, true⟩).logs ∧
    (runWriteSession boolCodec false [] none ⟨false, true, true, true⟩).value =
      applyMuts [] false ∧
    ((runWriteSession boolCodec false [] none ⟨false, true, true, true⟩).writes).length ≤ 1 :=
  c5_drop_failures_logged_and_swallowed boolCodec false [] none
    ⟨false, true, true, true⟩ (by decide)

/-- C6: `File::new` fails with `ioError` exactly when open or read fails, with
`decodeError` exactly when the contents are non-empty and fail to decode, and
succeeds exactly with the default (empty contents) or the fully decoded value
(non-empty contents) — no partial recovery (src/lib.rs:101-122). -/
theorem c6_construction_error_taxonomy {T : Type} (c : Codec T) (p : String)
    (fs : Option Bytes) (env : NewEnv) :
    ((fileNew c p fs env).1 = .error .ioError ↔
      (env.openOk = false ∨ env.readOk = false)) ∧
    ((fileNew c p fs env).1 = .error .decodeError ↔
      (env.openOk = true ∧ env.readOk = true ∧ fs.getD [] ≠ [] ∧
        c.fromStr (fs.getD []) = .error ())) ∧
    (∀ v : T, (fileNew c p fs env).1 = .ok ⟨v, p⟩ ↔
      (env.openOk = true ∧ env.readOk = true ∧
        ((fs.getD [] = [] ∧ v = c.dflt) ∨
          (fs.getD [] ≠ [] ∧ c.fromStr (fs.getD []) = .ok v)))) := by
  obtain ⟨oo, ro⟩ := env
  cases oo <;> cases ro <;> simp [fileNew]
  by_cases hc : fs.getD [] = []
  · simp [hc]
    intro v
    exact eq_comm
  · simp [hc]
    rcases hf : c.fromStr (fs.getD []) with u | w
    · cases u
      simp
    · simp

/-- C7: construction only ever materializes the file with its previous
contents (empty when it was absent) — the default value is never written back
— and a read session returns the in-memory value with the file untouched
(src/lib.rs:101-128). -/
theorem c7_construct_and_read_never_write {T : Type} (c : Codec T)
    (p : String) (fs : Option Bytes) (env : NewEnv) :
    (fileNew c p fs env).2 = (if env.openOk then some (fs.getD []) else fs) ∧
    ∀ s : StoreState T, fileRead s fs = (s.data, fs) := by
  constructor
  · obtain ⟨oo, ro⟩ := env
    cases oo <;> cases ro <;> simp [fileNew]
    · by_cases hc : fs.getD [] = []
      · simp [hc]
      · simp [hc]
        rcases hf : c.fromStr (fs.getD []) with u | w
        all_goals simp
  · intro s
    rfl

/-- Invariant of the lock's admission discipline: from the idle store, every
reachable occupancy has at most one writer, and never a reader together with a
writer. -/
theorem lock_invariant (s : LockState) (h : LockReachable s) :
    s.writers ≤ 1 ∧ (s.readers = 0 ∨ s.writers = 0) := by
  induction h with
  | refl => exact ⟨by simp, Or.inl rfl⟩
  | tail h step ih =>
    cases step <;> simp_all
    omega

/-- Any number of read sessions may be active together: every pure-reader
occupancy is reachable. -/
theorem lock_readers_reachable (n : Nat) : LockReachable ⟨n, 0⟩ := by
  induction n with
  | zero => exact Relation.ReflTransGen.refl
  | succ n ih => exact ih.tail (LockStep.acquireRead ⟨n, 0⟩ rfl)

/-- C8: over one store, every reachable lock occupancy has at most one active
write session and no read session while a write session is active — a second
`write().await` or any `read().await` issued while a writer holds the lock is
not admitted until release — while any number of read sessions may coexist
(src/lib.rs:126-137, the admission discipline of the store's `RwLock`). -/
theorem c8_write_sessions_mutually_exclusive (s : LockState)
    (h : LockReachable s) :
    s.writers ≤ 1 ∧ (s.writers ≠ 0 → s.readers = 0) ∧
    ∀ n : Nat, LockReachable ⟨n, 0⟩ := by
  obtain ⟨h1, h2⟩ := lock_invariant s h
  exact ⟨h1, fun hw => h2.resolve_right hw, lock_readers_reachable⟩

/-- C8 witness: the occupancy holding exactly one write session is reachable
and satisfies the exclusion invariant. -/
theorem c8_witness :
    (LockState.mk 0 1).writers ≤ 1 ∧
    ((LockState.mk 0 1).writers ≠ 0 → (LockState.mk 0 1).readers = 0) ∧
    ∀ n : Nat, LockReachable ⟨n, 0⟩ :=
  c8_write_sessions_mutually_exclusive ⟨0, 1⟩
    (Relation.ReflTransGen.single (LockStep.acquireWrite ⟨0, 0⟩ rfl rfl))

/-- C9 counterexample: the claim says the store keeps the canonicalized form
of the input path.  `File::new` stores `path.as_ref().to_path_buf()`
(src/lib.rs:119) — the input verbatim: constructing over `./state.json`
stores `./state.json`, while its canonical form drops the `./` component. -/
theorem c9_counterexample_path_left_verbatim :
    (fileNew boolCodec "./state.json" none okNewEnv).1 =
      .ok ⟨false, "./state.json"⟩ ∧
    spec_canonicalize "./state.json" ≠ "./state.json" := by
  constructor
  · rfl
  · decide

/-- C9 as amended: the path the store keeps, and the copy of it that
`File::write` hands to the guard for persistence, is the input path verbatim,
with no canonicalization (src/lib.rs:119, src/lib.rs:132-137). -/
theorem c9_path_stored_verbatim {T : Type} (c : Codec T) (p : String)
    (fs : Option Bytes) (env : NewEnv) (s : StoreState T)
    (h : (fileNew c p fs env).1 = .ok s) :
    s.path = p ∧ (fileWrite s).path = p := by
  obtain ⟨oo, ro⟩ := env
  cases oo <;> cases ro <;> simp [fileNew] at h
  by_cases hc : fs.getD [] = []
  · simp [hc] at h
    cases h
    exact ⟨rfl, rfl⟩
  · simp [hc] at h
    rcases hf : c.fromStr (fs.getD []) with u | w
    · rw [hf] at h
      simp at h
    · rw [hf] at h
      simp at h
      cases h
      exact ⟨rfl, rfl⟩

/-- C9 witness for the amended statement: a store built over `state.json`
keeps `state.json` itself. -/
theorem c9_witness :
    (StoreState.mk false "state.json").path = "state.json" ∧
    (fileWrite (StoreState.mk false "state.json")).path = "state.json" :=
  c9_path_stored_verbatim boolCodec "state.json" none okNewEnv
    ⟨false, "state.json"⟩ rfl

/-- C10: the default-on-empty test is `contents.is_empty()` (src/lib.rs:111),
an exact byte-emptiness check, so non-empty whitespace-only contents reach the
decoder, which rejects them: construction fails with the decode error instead
of resolving to the default value. -/
theorem c10_whitespace_only_contents_fail {T : Type} (c : Codec T)
    (p : String) (s : Bytes) (hws : WsFails c) (hne : s ≠ [])
    (hall : s.all isJsonWS = true) :
    (fileNew c p (some s) okNewEnv).1 = .error .decodeError := by
  have hf := hws s hne hall
  simp [fileNew, okNewEnv, hne, hf]

/-- C10 witness: a file holding one space character fails to decode under the
`bool` codec. -/
theorem c10_witness :
    (fileNew boolCodec "ws.json" (some [' ']) okNewEnv).1 =
      .error .decodeError :=
  c10_whitespace_only_contents_fail boolCodec "ws.json" [' ']
    boolCodec_wsFails (by decide) (by decide)

end Statefile
